import Mathlib

set_option maxHeartbeats 1000000

/-!
Verification development for the `net_profiler` profile application engine
(`src/lib.rs`).  The pure string functions (`check_valid_ipv4`,
`check_valid_subnet`, `cidr_to_dotted_decimal`, `dotted_decimal_to_cidr`,
`normalize_subnet_for_os`) are embedded directly, together with the exact
semantics of the Rust standard-library parsers they call
(`Ipv4Addr::from_str`, `u8::from_str`).  The effectful pipeline
(`load_profile`, `set_ip_addr`, `set_dns`) is embedded at two levels:
an operation level where `load_profile` consults an oracle for the result
of each logical operation and records the trace of operations it issued,
and a command level where the Linux branches of `set_ip_addr` / `set_dns`
consult an oracle mapping each external command to one of the three
process outcomes (spawned-and-succeeded, spawned-and-failed, spawn error)
and record the trace of commands attempted.
-/

/-! ## Characters and decimal digits -/

/-- ASCII decimal digit test (Rust `u8::is_ascii_digit` on string bytes). -/
def isDig (c : Char) : Bool := decide (48 ≤ c.toNat ∧ c.toNat ≤ 57)

/-- Numeric value of an ASCII digit. -/
def digitVal (c : Char) : Nat := c.toNat - 48

/-- Value of a decimal digit string (most significant first). -/
def digitsVal (t : List Char) : Nat := t.foldl (fun a c => a * 10 + digitVal c) 0

/-- The ASCII character of a decimal digit (`n ≤ 9`; larger inputs clamp). -/
def digitChar (n : Nat) : Char :=
  match n with
  | 0 => '0'
  | 1 => '1'
  | 2 => '2'
  | 3 => '3'
  | 4 => '4'
  | 5 => '5'
  | 6 => '6'
  | 7 => '7'
  | 8 => '8'
  | _ => '9'

/-- Decimal rendering of a natural number, as Rust `Display` renders it.
Only ever applied to values below 1000 in this development (`u8` octets and
CIDR prefix lengths, all at most 255). -/
def renderNat (v : Nat) : List Char :=
  if v < 10 then [digitChar v]
  else if v < 100 then [digitChar (v / 10), digitChar (v % 10)]
  else [digitChar (v / 100), digitChar (v / 10 % 10), digitChar (v % 10)]

/-! ## Splitting a string at the dots -/

/-- Split a character list at every `'.'` (the grouping performed by Rust's
`Ipv4Addr` parser, which reads an octet, then expects `'.'`, four times). -/
def splitOnDot : List Char → List (List Char)
  | [] => [[]]
  | c :: cs =>
    if c = '.' then [] :: splitOnDot cs
    else
      match splitOnDot cs with
      | [] => [[c]]
      | g :: gs => (c :: g) :: gs

/-- Inverse of `splitOnDot`: interleave the groups with `'.'`. -/
def joinDot : List (List Char) → List Char
  | [] => []
  | [t] => t
  | t :: ts => t ++ '.' :: joinDot ts

/-- The characters of the dotted-decimal rendering of four octets
(Rust `Ipv4Addr::to_string`). -/
def ipv4Chars (a b c d : Nat) : List Char :=
  renderNat a ++ '.' :: renderNat b ++ '.' :: renderNat c ++ '.' :: renderNat d

/-! ## Rust standard-library number parsing -/

/-- Rust's `Ipv4Addr` octet rule: a lone `"0"` is fine, but a zero prefix
on a longer token is rejected. -/
def noLeadZero : List Char → Bool
  | '0' :: _ :: _ => false
  | _ => true

/-- Whether a token is a valid `Ipv4Addr` octet: nonempty, all digits,
at most three digits, no leading zero, value at most 255. -/
def isOctetTok (t : List Char) : Bool :=
  !t.isEmpty && t.all isDig && decide (t.length ≤ 3) && noLeadZero t &&
    decide (digitsVal t ≤ 255)

/-- Parse one octet as Rust's `Ipv4Addr` parser does. -/
def parseOctet (t : List Char) : Option Nat :=
  if isOctetTok t then some (digitsVal t) else none

/-- Rust `Ipv4Addr::from_str`: exactly four dot-separated octets and
nothing else. -/
def parseIpv4 (cs : List Char) : Option (Nat × Nat × Nat × Nat) :=
  match splitOnDot cs with
  | [t1, t2, t3, t4] =>
    match parseOctet t1, parseOctet t2, parseOctet t3, parseOctet t4 with
    | some a, some b, some c, some d => some (a, b, c, d)
    | _, _, _, _ => none
  | _ => none

/-- Strip the optional leading `'+'` sign accepted by Rust integer
parsing. -/
def stripPlus : List Char → List Char
  | '+' :: rest => rest
  | t => t

/-- Rust `u8::from_str`: an optional leading `'+'`, then a nonempty digit
string (leading zeros allowed) whose value fits in eight bits. -/
def parseU8 (t : List Char) : Option Nat :=
  let ds := stripPlus t
  if ds.isEmpty then none
  else if ds.all isDig then
    if digitsVal ds ≤ 255 then some (digitsVal ds) else none
  else none

/-! ## 32-bit mask bit counting (Rust `u32::leading_ones`,
`u32::trailing_zeros`) -/

/-- Count the run of set bits of `m` downward from bit `k - 1`. -/
def loAux : Nat → Nat → Nat
  | 0, _ => 0
  | k + 1, m => if Nat.testBit m k then loAux k m + 1 else 0

/-- `u32::leading_ones` for `m < 2 ^ 32`. -/
def leadingOnes32 (m : Nat) : Nat := loAux 32 m

/-- Count the run of clear bits of `m` upward from bit 0, with fuel. -/
def tzAux : Nat → Nat → Nat
  | 0, _ => 0
  | f + 1, m => if m % 2 = 1 then 0 else tzAux f (m / 2) + 1

/-- `u32::trailing_zeros` for `m < 2 ^ 32` (32 on zero). -/
def trailingZeros32 (m : Nat) : Nat := tzAux 32 m

/-- `u32::from_be_bytes` of four octets. -/
def maskOf (o : Nat × Nat × Nat × Nat) : Nat :=
  o.1 * 2 ^ 24 + o.2.1 * 2 ^ 16 + o.2.2.1 * 2 ^ 8 + o.2.2.2

/-- The mask the source computes from a prefix length:
`if N == 0 { 0 } else { !((1u32 << (32 - N)) - 1) }`. -/
def maskBits (n : Nat) : Nat :=
  if n = 0 then 0 else (2 ^ 32 - 1) - (2 ^ (32 - n) - 1)

/-- `Ipv4Addr::from(u32)`: the four big-endian octets. -/
def octetsOf (mask : Nat) : Nat × Nat × Nat × Nat :=
  (mask / 2 ^ 24 % 256, mask / 2 ^ 16 % 256, mask / 2 ^ 8 % 256, mask % 256)

/-- `Ipv4Addr::to_string` of four octets. -/
def renderIpv4 (o : Nat × Nat × Nat × Nat) : String :=
  String.mk (ipv4Chars o.1 o.2.1 o.2.2.1 o.2.2.2)

/-! ## The validators and converters of `src/lib.rs` -/

/-- `check_valid_ipv4` (`lib.rs:566`): does the string parse as `Ipv4Addr`. -/
def check_valid_ipv4 (s : String) : Bool := (parseIpv4 s.data).isSome

/-- `check_valid_subnet` (`lib.rs:570`): a parseable dotted address whose
32-bit value satisfies `leading_ones + trailing_zeros == 32`, or a `'/'`
followed by a nonempty remainder that parses as `u8` with value at most 32. -/
def check_valid_subnet (s : String) : Bool :=
  match parseIpv4 s.data with
  | some o => decide (leadingOnes32 (maskOf o) + trailingZeros32 (maskOf o) = 32)
  | none =>
    match s.data with
    | '/' :: rest =>
      if rest.isEmpty then false
      else
        match parseU8 rest with
        | some n => decide (n ≤ 32)
        | none => false
    | _ => false

/-- `cidr_to_dotted_decimal` (`lib.rs:599`): strip `'/'`, parse as `u8`,
require at most 32, render the computed mask as an address. -/
def cidr_to_dotted_decimal (s : String) : Except String String :=
  match s.data with
  | '/' :: rest =>
    match parseU8 rest with
    | some n =>
      if n ≤ 32 then Except.ok (renderIpv4 (octetsOf (maskBits n)))
      else Except.error ("Invalid CIDR notation: " ++ s)
    | none => Except.error ("Invalid CIDR notation: " ++ s)
  | _ => Except.error ("Invalid CIDR notation: " ++ s)

/-- `dotted_decimal_to_cidr` (`lib.rs:644`): parse as `Ipv4Addr`, require a
contiguous mask, answer `"/{leading_ones}"`. -/
def dotted_decimal_to_cidr (s : String) : Except String String :=
  match parseIpv4 s.data with
  | some o =>
    if leadingOnes32 (maskOf o) + trailingZeros32 (maskOf o) = 32 then
      Except.ok (String.mk ('/' :: renderNat (leadingOnes32 (maskOf o))))
    else Except.error ("Invalid subnet mask: " ++ s)
  | none => Except.error ("Invalid dotted decimal notation: " ++ s)

/-- `normalize_subnet_for_os` (`lib.rs:622`), Linux branch: CIDR passes
through, dotted decimal is converted to CIDR. -/
def normalize_subnet_for_os (subnet : String) : Except String String :=
  match subnet.data with
  | '/' :: _ => Except.ok subnet
  | _ => dotted_decimal_to_cidr subnet

/-! ## The data model of `src/lib.rs` -/

/-- The `DNS` selection enum (`lib.rs:81`). -/
inductive DNS where
  | None
  | Quad9
  | Google
  | Cloudflare
  | OpenDNS
  | Custom (primary secondary : String)
deriving DecidableEq

/-- `DNS::QUAD9` constant pair. -/
def DNS.QUAD9 : String × String := ("9.9.9.9", "149.112.112.112")

/-- `DNS::GOOGLE` constant pair. -/
def DNS.GOOGLE : String × String := ("8.8.8.8", "8.8.4.4")

/-- `DNS::CLOUDFLARE` constant pair. -/
def DNS.CLOUDFLARE : String × String := ("1.1.1.2", "1.0.0.2")

/-- `DNS::OPENDNS` constant pair. -/
def DNS.OPENDNS : String × String := ("208.67.222.222", "208.67.220.220")

/-- `DNS::addresses` (`lib.rs:140`). -/
def DNS.addresses : DNS → Option (String × String)
  | DNS.None => Option.none
  | DNS.Quad9 => some DNS.QUAD9
  | DNS.Google => some DNS.GOOGLE
  | DNS.Cloudflare => some DNS.CLOUDFLARE
  | DNS.OpenDNS => some DNS.OPENDNS
  | DNS.Custom p s => some (p, s)

/-- `DNS::primary` (`lib.rs:151`). -/
def DNS.primary : DNS → Option String
  | DNS.None => Option.none
  | DNS.Quad9 => some DNS.QUAD9.1
  | DNS.Google => some DNS.GOOGLE.1
  | DNS.Cloudflare => some DNS.CLOUDFLARE.1
  | DNS.OpenDNS => some DNS.OPENDNS.1
  | DNS.Custom p _ => some p

/-- `DNS::secondary` (`lib.rs:162`). -/
def DNS.secondary : DNS → Option String
  | DNS.None => Option.none
  | DNS.Quad9 => some DNS.QUAD9.2
  | DNS.Google => some DNS.GOOGLE.2
  | DNS.Cloudflare => some DNS.CLOUDFLARE.2
  | DNS.OpenDNS => some DNS.OPENDNS.2
  | DNS.Custom _ s => some s

/-- The `IP` struct (`lib.rs:74`). -/
structure IP where
  address : String
  subnet : String
deriving DecidableEq

/-- The `MAC` struct (`lib.rs:96`). -/
structure MAC where
  address : String
deriving DecidableEq

/-- The `NetworkProfile` struct (`lib.rs:64`). -/
structure NetworkProfile where
  name : String
  ips : List IP
  gateways : List String
  dns : DNS
  mac : Option MAC
deriving DecidableEq

/-! ## Operation-level model of `load_profile` (`lib.rs:180`)

Each logical operation `load_profile` can issue is an `Event`.  An oracle
`run : Event → Except String Unit` supplies each operation's result; the
model returns the ordered trace of operations actually issued together
with `load_profile`'s own result. -/

/-- One logical adapter-configuration operation. -/
inductive Event where
  | setIp (adapter address subnet : String) (gateway : Option String)
  | addIp (adapter address subnet : String)
  | addGateway (adapter gateway : String) (metric : Nat)
  | setDns (adapter : String) (dns : DNS)
deriving DecidableEq

/-- Is the event an `add_gateway` operation. -/
def Event.isGw : Event → Bool
  | Event.addGateway _ _ _ => true
  | _ => false

/-- The `for ip in profile.ips.iter().skip(1)` loop of `load_profile`:
each additional address is attempted in order, the first failure is
returned at once. -/
def runAddIps (run : Event → Except String Unit) (adapter : String) :
    List IP → List Event × Except String Unit
  | [] => ([], Except.ok ())
  | ip :: rest =>
    let e := Event.addIp adapter ip.address ip.subnet
    match run e with
    | Except.error err => ([e], Except.error err)
    | Except.ok _ =>
      let r := runAddIps run adapter rest
      (e :: r.1, r.2)

/-- The `for (i, gateway) in profile.gateways.iter().skip(1).enumerate()`
loop of `load_profile`: gateway at position `i` of the skipped list gets
metric `i + 1`, the first failure is returned at once. -/
def runAddGateways (run : Event → Except String Unit) (adapter : String) :
    List String → Nat → List Event × Except String Unit
  | [], _ => ([], Except.ok ())
  | g :: rest, i =>
    let e := Event.addGateway adapter g (i + 1)
    match run e with
    | Except.error err => ([e], Except.error err)
    | Except.ok _ =>
      let r := runAddGateways run adapter rest (i + 1)
      (e :: r.1, r.2)

/-- `load_profile` (`lib.rs:180`): primary address first (with the first
gateway, if any), then the remaining addresses, then the remaining
gateways, then DNS; every failure aborts immediately with that error. -/
def load_profile (run : Event → Except String Unit) (profile : NetworkProfile)
    (adapter : String) : List Event × Except String Unit :=
  let ipsPhase : List Event × Except String Unit :=
    match profile.ips with
    | [] => ([], Except.ok ())
    | first :: rest =>
      let e := Event.setIp adapter first.address first.subnet profile.gateways.head?
      match run e with
      | Except.error err => ([e], Except.error err)
      | Except.ok _ =>
        let r := runAddIps run adapter rest
        (e :: r.1, r.2)
  match ipsPhase with
  | (t, Except.error err) => (t, Except.error err)
  | (t, Except.ok _) =>
    let gwPhase : List Event × Except String Unit :=
      if profile.gateways.length > 1 then
        runAddGateways run adapter (profile.gateways.drop 1) 0
      else ([], Except.ok ())
    match gwPhase with
    | (t2, Except.error err) => (t ++ t2, Except.error err)
    | (t2, Except.ok _) =>
      let e := Event.setDns adapter profile.dns
      match run e with
      | Except.error err => (t ++ t2 ++ [e], Except.error err)
      | Except.ok _ => (t ++ t2 ++ [e], Except.ok ())

/-! ## Command-level model of the Linux branches

External process invocations are `Cmd` values; an oracle
`runCmd : Cmd → Outcome` supplies each invocation's outcome, one of the
three cases the source distinguishes. -/

/-- An external command: executable name and arguments. -/
structure Cmd where
  name : String
  args : List String
deriving DecidableEq

/-- Outcome of invoking one external command. -/
inductive Outcome where
  | spawnFail (msg : String)
  | ran (success : Bool) (stderr : String)
deriving DecidableEq

/-- `ip addr flush dev <adapter>`. -/
def flushCmd (adapter : String) : Cmd :=
  ⟨"ip", ["addr", "flush", "dev", adapter]⟩

/-- `ip addr add <address><normalized_subnet> dev <adapter>`. -/
def addAddrCmd (adapter ipAddress ns : String) : Cmd :=
  ⟨"ip", ["addr", "add", ipAddress ++ ns, "dev", adapter]⟩

/-- `ip route add default via <gateway> dev <adapter>`. -/
def routeCmd (adapter gateway : String) : Cmd :=
  ⟨"ip", ["route", "add", "default", "via", gateway, "dev", adapter]⟩

/-- `set_ip_addr` (`lib.rs:230`), Linux branch (`lib.rs:271`): flush
(only a spawn failure is checked there), then add (spawn failure and
failure exit both abort), then optionally the default route, whose
failures are logged but never returned. -/
def set_ip_addr (runCmd : Cmd → Outcome) (adapter ipAddress subnet : String)
    (gateway : Option String) : List Cmd × Except String Unit :=
  match normalize_subnet_for_os subnet with
  | Except.error e => ([], Except.error e)
  | Except.ok ns =>
    let c1 := flushCmd adapter
    match runCmd c1 with
    | Outcome.spawnFail e => ([c1], Except.error e)
    | Outcome.ran _ _ =>
      let c2 := addAddrCmd adapter ipAddress ns
      match runCmd c2 with
      | Outcome.spawnFail e => ([c1, c2], Except.error e)
      | Outcome.ran false st => ([c1, c2], Except.error st)
      | Outcome.ran true _ =>
        match gateway with
        | Option.none => ([c1, c2], Except.ok ())
        | some gw =>
          let c3 := routeCmd adapter gw
          match runCmd c3 with
          | Outcome.ran true _ => ([c1, c2, c3], Except.ok ())
          | Outcome.ran false _ => ([c1, c2, c3], Except.ok ())
          | Outcome.spawnFail _ => ([c1, c2, c3], Except.ok ())

/-- `nmcli con modify <adapter> ipv4.dns "" ipv4.ignore-auto-dns no`. -/
def dnsAutoCmd (adapter : String) : Cmd :=
  ⟨"nmcli", ["con", "modify", adapter, "ipv4.dns", "", "ipv4.ignore-auto-dns", "no"]⟩

/-- `nmcli con modify <adapter> ipv4.dns <servers> ipv4.ignore-auto-dns yes`. -/
def dnsStaticCmd (adapter servers : String) : Cmd :=
  ⟨"nmcli", ["con", "modify", adapter, "ipv4.dns", servers, "ipv4.ignore-auto-dns", "yes"]⟩

/-- `set_dns` (`lib.rs:487`), Linux branch (`lib.rs:526`): one `nmcli`
invocation; the source matches only on whether the process spawned
(`Err(e)` versus `Ok(_)`), so a failure exit status is not an error. -/
def set_dns (runCmd : Cmd → Outcome) (adapter : String) (dns : DNS) :
    List Cmd × Except String Unit :=
  match dns with
  | DNS.None =>
    let c := dnsAutoCmd adapter
    match runCmd c with
    | Outcome.spawnFail e => ([c], Except.error e)
    | Outcome.ran _ _ => ([c], Except.ok ())
  | _ =>
    match dns.addresses with
    | some (primaryDns, secondaryDns) =>
      let c := dnsStaticCmd adapter (primaryDns ++ "," ++ secondaryDns)
      match runCmd c with
      | Outcome.spawnFail e => ([c], Except.error e)
      | Outcome.ran _ _ => ([c], Except.ok ())
    | Option.none => ([], Except.ok ())

/-- The Windows DHCP restore command of `set_dns`. -/
def dnsDhcpCmdW (adapter : String) : Cmd :=
  ⟨"powershell",
    ["-Command", "netsh interface ip set dnsservers \"" ++ adapter ++ "\" source=dhcp"]⟩

/-- The Windows static-DNS command of `set_dns` (primary then secondary). -/
def dnsSetCmdW (adapter primaryDns secondaryDns : String) : Cmd :=
  ⟨"powershell",
    ["-Command",
      "netsh interface ip set dns \"" ++ adapter ++ "\" static " ++ primaryDns ++
        " primary validate=no; netsh interface ip add dns \"" ++ adapter ++ "\" " ++
        secondaryDns ++ " validate=no"]⟩

/-- `set_dns` (`lib.rs:487`), Windows branch (`lib.rs:491`).  The non-`None`
arm calls `dns.primary().unwrap()` and `dns.secondary().unwrap()`; an
`unwrap` of `None` is a panic, modelled as the `Option.none` result. -/
def set_dns_windows (runCmd : Cmd → Outcome) (adapter : String) (dns : DNS) :
    Option (List Cmd × Except String Unit) :=
  match dns with
  | DNS.None =>
    let c := dnsDhcpCmdW adapter
    match runCmd c with
    | Outcome.spawnFail e => some ([c], Except.error e)
    | Outcome.ran _ _ => some ([c], Except.ok ())
  | _ =>
    match dns.primary, dns.secondary with
    | some p, some s =>
      let c := dnsSetCmdW adapter p s
      match runCmd c with
      | Outcome.spawnFail e => some ([c], Except.error e)
      | Outcome.ran _ _ => some ([c], Except.ok ())
    | _, _ => Option.none

/-! ## Spec-side formulations (for the refinement claims) -/

/-- Spec wording of one octet: "a decimal number in [0,255]". -/
def spec_octet_literal (t : List Char) : Bool :=
  !t.isEmpty && t.all isDig && decide (digitsVal t ≤ 255)

/-- Spec wording of `is_valid_ipv4`: "four dot-separated octets, each in
[0,255], no extra characters". -/
def spec_ipv4_literal (s : String) : Bool :=
  match splitOnDot s.data with
  | [t1, t2, t3, t4] =>
    spec_octet_literal t1 && spec_octet_literal t2 && spec_octet_literal t3 &&
      spec_octet_literal t4
  | _ => false

/-- Spec wording of the CIDR alternative of `is_valid_subnet`: "a string of
the form `/N` with `0 <= N <= 32`" (a slash followed by the decimal digits
of `N`). -/
def spec_cidr_literal (s : String) : Bool :=
  match s.data with
  | '/' :: ds => !ds.isEmpty && ds.all isDig && decide (digitsVal ds ≤ 32)
  | _ => false

/-- Spec wording of `is_valid_subnet`: a contiguous dotted mask, or a
string of the form `/N` with `N ≤ 32`. -/
def spec_subnet_literal (s : String) : Bool :=
  (match parseIpv4 s.data with
   | some o => decide (leadingOnes32 (maskOf o) + trailingZeros32 (maskOf o) = 32)
   | none => false)
  || spec_cidr_literal s

/-- The expected gateway events for the tail of a gateway list, starting
after position `i` of the skipped list: metrics count up from `i + 1`. -/
def gwPlan (adapter : String) : List String → Nat → List Event
  | [], _ => []
  | g :: rest, i => Event.addGateway adapter g (i + 1) :: gwPlan adapter rest (i + 1)

/-- The expected address events of a profile: the replacing primary
operation for the first entry (carrying the first gateway), then one
additive operation per remaining entry. -/
def ipPlan (adapter : String) (profile : NetworkProfile) : List Event :=
  match profile.ips with
  | [] => []
  | first :: rest =>
    Event.setIp adapter first.address first.subnet profile.gateways.head? ::
      rest.map fun ip => Event.addIp adapter ip.address ip.subnet

/-! ## Concrete oracles used by witnesses and counterexamples -/

/-- Operation oracle on which every operation succeeds. -/
def allOk : Event → Except String Unit := fun _ => Except.ok ()

/-- Operation oracle on which adding the address `10.0.0.2` fails and
everything else succeeds. -/
def failOnSecondIp : Event → Except String Unit := fun e =>
  match e with
  | Event.addIp _ a _ => if a = "10.0.0.2" then Except.error "add failed" else Except.ok ()
  | _ => Except.ok ()

/-- Operation oracle on which only the DNS operation fails. -/
def failOnDns : Event → Except String Unit := fun e =>
  match e with
  | Event.setDns _ _ => Except.error "dns failed"
  | _ => Except.ok ()

/-- Profile with three addresses and one gateway. -/
def profThreeIps : NetworkProfile :=
  ⟨"p", [⟨"10.0.0.1", "/24"⟩, ⟨"10.0.0.2", "/24"⟩, ⟨"10.0.0.3", "/24"⟩],
    ["10.0.0.254"], DNS.None, Option.none⟩

/-- Profile with one address and three gateways. -/
def profThreeGws : NetworkProfile :=
  ⟨"q", [⟨"10.0.0.1", "/24"⟩], ["g1", "g2", "g3"], DNS.Google, Option.none⟩

/-- Command oracle on which every process runs and exits successfully. -/
def runAllOk : Cmd → Outcome := fun _ => Outcome.ran true ""

/-- Command oracle on which every process runs but exits with failure. -/
def runAllRanFail : Cmd → Outcome := fun _ => Outcome.ran false "exited 1"

/-- Command oracle on which the flush on `eth0` runs but exits with
failure, and everything else succeeds. -/
def runFlushRanFail : Cmd → Outcome := fun c =>
  if c.args = ["addr", "flush", "dev", "eth0"] then Outcome.ran false "flush exited 1"
  else Outcome.ran true ""

/-- Command oracle on which the flush on `eth0` fails to spawn. -/
def runFlushSpawnFail : Cmd → Outcome := fun c =>
  if c.args = ["addr", "flush", "dev", "eth0"] then Outcome.spawnFail "ip not found"
  else Outcome.ran true ""

/-- Command oracle on which the default-route command runs but exits with
failure, and everything else succeeds. -/
def runRouteRanFail : Cmd → Outcome := fun c =>
  if c.args.take 2 = ["route", "add"] then Outcome.ran false "route exited 2"
  else Outcome.ran true ""

/-- The single `nmcli` command `set_dns` (Linux branch) issues for a given
DNS selection. -/
def dnsCmd (adapter : String) (dns : DNS) : Cmd :=
  match dns with
  | DNS.None => dnsAutoCmd adapter
  | _ =>
    match dns.addresses with
    | some (p, t) => dnsStaticCmd adapter (p ++ "," ++ t)
    | Option.none => dnsAutoCmd adapter

/-- Command oracle on which every process fails to spawn. -/
def runSpawnFailAll : Cmd → Outcome := fun _ => Outcome.spawnFail "nmcli not found"

/-- Operation oracle failing exactly on the DNS operation of `profThreeIps`
on `eth0`. -/
def failOnDnsExact : Event → Except String Unit := fun e =>
  if e = Event.setDns "eth0" DNS.None then Except.error "dns failed" else Except.ok ()

/-! ## Helper lemmas: characters and digits -/

theorem char_eq_of_toNat_eq {c d : Char} (h : c.toNat = d.toNat) : c = d :=
  Char.eq_of_val_eq (UInt32.ext h)

theorem isDig_iff {c : Char} : isDig c = true ↔ 48 ≤ c.toNat ∧ c.toNat ≤ 57 := by
  simp [isDig]

theorem toNat_digitChar {n : Nat} (h : n ≤ 9) : (digitChar n).toNat = 48 + n := by
  interval_cases n <;> rfl

theorem isDig_digitChar {n : Nat} (h : n ≤ 9) : isDig (digitChar n) = true := by
  interval_cases n <;> decide

theorem digitVal_digitChar {n : Nat} (h : n ≤ 9) : digitVal (digitChar n) = n := by
  interval_cases n <;> decide

theorem digitVal_le {c : Char} (h : isDig c = true) : digitVal c ≤ 9 := by
  rcases isDig_iff.mp h with ⟨h1, h2⟩
  unfold digitVal
  omega

theorem digitChar_digitVal {c : Char} (h : isDig c = true) : digitChar (digitVal c) = c := by
  rcases isDig_iff.mp h with ⟨h1, h2⟩
  apply char_eq_of_toNat_eq
  rw [toNat_digitChar (by unfold digitVal; omega)]
  unfold digitVal
  omega

theorem isDig_ne_dot {c : Char} (h : isDig c = true) : c ≠ '.' := by
  intro he
  rw [he] at h
  exact absurd h (by decide)

theorem isDig_ne_plus {c : Char} (h : isDig c = true) : c ≠ '+' := by
  intro he
  rw [he] at h
  exact absurd h (by decide)

theorem digitVal_pos {c : Char} (hd : isDig c = true) (hz : c ≠ '0') : 1 ≤ digitVal c := by
  rcases isDig_iff.mp hd with ⟨h1, h2⟩
  have h48 : c.toNat ≠ 48 := by
    intro he
    exact hz (char_eq_of_toNat_eq (by rw [he]; rfl))
  unfold digitVal
  omega

theorem digitChar_ne_zero {n : Nat} (h1 : 1 ≤ n) (h2 : n ≤ 9) : digitChar n ≠ '0' := by
  interval_cases n <;> decide

/-! ## Helper lemmas: decimal rendering round trips -/

theorem digitsVal_one (a : Char) : digitsVal [a] = digitVal a := by
  simp [digitsVal]

theorem digitsVal_two (a b : Char) : digitsVal [a, b] = digitVal a * 10 + digitVal b := by
  simp [digitsVal]

theorem digitsVal_three (a b c : Char) :
    digitsVal [a, b, c] = (digitVal a * 10 + digitVal b) * 10 + digitVal c := by
  simp [digitsVal]

theorem renderNat_facts {v : Nat} (h : v ≤ 255) :
    (renderNat v).all isDig = true ∧ renderNat v ≠ [] ∧ (renderNat v).length ≤ 3 ∧
      noLeadZero (renderNat v) = true ∧ digitsVal (renderNat v) = v := by
  unfold renderNat
  by_cases h10 : v < 10
  · simp only [if_pos h10]
    refine ⟨?_, by simp, by simp, by simp [noLeadZero], ?_⟩
    · simp [List.all_cons, isDig_digitChar (by omega : v ≤ 9)]
    · rw [digitsVal_one, digitVal_digitChar (by omega)]
  · by_cases h100 : v < 100
    · simp only [if_neg h10, if_pos h100]
      have hq : 1 ≤ v / 10 ∧ v / 10 ≤ 9 := by omega
      have hr : v % 10 ≤ 9 := by omega
      refine ⟨?_, by simp, by simp, ?_, ?_⟩
      · simp [List.all_cons, isDig_digitChar hq.2, isDig_digitChar hr]
      · have hz := digitChar_ne_zero hq.1 hq.2
        revert hz
        generalize digitChar (v / 10) = c
        intro hz
        unfold noLeadZero
        split
        · next heq =>
            injection heq with h1 h2
            exact absurd h1 hz
        · rfl
      · rw [digitsVal_two, digitVal_digitChar hq.2, digitVal_digitChar hr]
        omega
    · simp only [if_neg h10, if_neg h100]
      have hq : 1 ≤ v / 100 ∧ v / 100 ≤ 9 := by omega
      have hm : v / 10 % 10 ≤ 9 := by omega
      have hr : v % 10 ≤ 9 := by omega
      refine ⟨?_, by simp, by simp, ?_, ?_⟩
      · simp [List.all_cons, isDig_digitChar hq.2, isDig_digitChar hm, isDig_digitChar hr]
      · have hz := digitChar_ne_zero hq.1 hq.2
        revert hz
        generalize digitChar (v / 100) = c
        intro hz
        unfold noLeadZero
        split
        · next heq =>
            injection heq with h1 h2
            exact absurd h1 hz
        · rfl
      · rw [digitsVal_three, digitVal_digitChar hq.2, digitVal_digitChar hm,
          digitVal_digitChar hr]
        omega

/-! ## Helper lemmas: splitting at dots -/

theorem splitOnDot_ne_nil (cs : List Char) : splitOnDot cs ≠ [] := by
  cases cs with
  | nil => simp [splitOnDot]
  | cons c cs =>
    unfold splitOnDot
    by_cases hc : c = '.'
    · simp [hc]
    · simp only [if_neg hc]
      split <;> simp

theorem splitOnDot_cons_dot (cs : List Char) : splitOnDot ('.' :: cs) = [] :: splitOnDot cs := by
  simp [splitOnDot]

theorem splitOnDot_cons_ne {c : Char} {cs : List Char} {g : List Char}
    {gs : List (List Char)} (hc : c ≠ '.') (hsp : splitOnDot cs = g :: gs) :
    splitOnDot (c :: cs) = (c :: g) :: gs := by
  unfold splitOnDot
  rw [if_neg hc, hsp]

theorem joinDot_cons (t : List Char) (g : List Char) (gs : List (List Char)) :
    joinDot (t :: g :: gs) = t ++ '.' :: joinDot (g :: gs) := by
  rfl

theorem joinDot_splitOnDot (cs : List Char) : joinDot (splitOnDot cs) = cs := by
  induction cs with
  | nil => rfl
  | cons c cs ih =>
    rcases hsp : splitOnDot cs with _ | ⟨g, gs⟩
    · exact absurd hsp (splitOnDot_ne_nil cs)
    · rw [hsp] at ih
      by_cases hc : c = '.'
      · subst hc
        rw [splitOnDot_cons_dot, hsp, joinDot_cons]
        simpa using ih
      · rw [splitOnDot_cons_ne hc hsp]
        cases gs with
        | nil =>
          simp only [joinDot] at ih ⊢
          rw [ih]
        | cons g2 gs2 =>
          rw [joinDot_cons] at ih ⊢
          rw [List.cons_append, ih]

theorem splitOnDot_noDot {t : List Char} (h : ∀ c ∈ t, c ≠ '.') : splitOnDot t = [t] := by
  induction t with
  | nil => rfl
  | cons c cs ih =>
    have hc : c ≠ '.' := h c (by simp)
    exact splitOnDot_cons_ne hc (ih (fun x hx => h x (by simp [hx])))

theorem splitOnDot_append {t rest : List Char} (h : ∀ c ∈ t, c ≠ '.') :
    splitOnDot (t ++ '.' :: rest) = t :: splitOnDot rest := by
  induction t with
  | nil => simp [splitOnDot_cons_dot]
  | cons c cs ih =>
    have hc : c ≠ '.' := h c (by simp)
    have ih2 := ih (fun x hx => h x (by simp [hx]))
    simp only [List.cons_append]
    exact splitOnDot_cons_ne hc ih2

/-! ## Helper lemmas: octet and u8 parse/render equivalences -/

theorem parseOctet_le {t : List Char} {v : Nat} (h : parseOctet t = some v) : v ≤ 255 := by
  unfold parseOctet at h
  split at h
  · next ht =>
    simp only [isOctetTok, Bool.and_eq_true, decide_eq_true_eq] at ht
    injection h with hv
    omega
  · exact absurd h (by simp)

theorem parseOctet_renderNat {v : Nat} (h : v ≤ 255) : parseOctet (renderNat v) = some v := by
  obtain ⟨hall, hne, hlen, hlead, hval⟩ := renderNat_facts h
  have hempty : (renderNat v).isEmpty = false := by
    cases hrn : renderNat v
    · exact absurd hrn hne
    · rfl
  unfold parseOctet isOctetTok
  rw [hall, hlead, hval, hempty]
  simp [h, hlen]

theorem renderNat_parseOctet {t : List Char} {v : Nat} (h : parseOctet t = some v) :
    renderNat v = t := by
  unfold parseOctet at h
  split at h
  case isFalse => exact absurd h (by simp)
  case isTrue ht =>
  injection h with hv
  simp only [isOctetTok, Bool.and_eq_true, decide_eq_true_eq, Bool.not_eq_true',
    List.all_eq_true] at ht
  obtain ⟨⟨⟨⟨hempty, hall⟩, hlen⟩, hlead⟩, h255⟩ := ht
  rcases t with _ | ⟨c1, _ | ⟨c2, _ | ⟨c3, rest⟩⟩⟩
  · simp at hempty
  · have hd1 : isDig c1 = true := hall c1 (by simp)
    have h9 : digitVal c1 ≤ 9 := digitVal_le hd1
    rw [digitsVal_one] at hv
    subst hv
    unfold renderNat
    rw [if_pos (by omega)]
    rw [digitChar_digitVal hd1]
  · have hd1 : isDig c1 = true := hall c1 (by simp)
    have hd2 : isDig c2 = true := hall c2 (by simp)
    have h91 : digitVal c1 ≤ 9 := digitVal_le hd1
    have h92 : digitVal c2 ≤ 9 := digitVal_le hd2
    have hz : c1 ≠ '0' := by
      intro he
      subst he
      simp [noLeadZero] at hlead
    have hpos : 1 ≤ digitVal c1 := digitVal_pos hd1 hz
    rw [digitsVal_two] at hv
    subst hv
    unfold renderNat
    rw [if_neg (by omega), if_pos (by omega)]
    have e1 : (digitVal c1 * 10 + digitVal c2) / 10 = digitVal c1 := by omega
    have e2 : (digitVal c1 * 10 + digitVal c2) % 10 = digitVal c2 := by omega
    rw [e1, e2, digitChar_digitVal hd1, digitChar_digitVal hd2]
  · rcases rest with _ | ⟨c4, rest⟩
    · have hd1 : isDig c1 = true := hall c1 (by simp)
      have hd2 : isDig c2 = true := hall c2 (by simp)
      have hd3 : isDig c3 = true := hall c3 (by simp)
      have h91 : digitVal c1 ≤ 9 := digitVal_le hd1
      have h92 : digitVal c2 ≤ 9 := digitVal_le hd2
      have h93 : digitVal c3 ≤ 9 := digitVal_le hd3
      have hz : c1 ≠ '0' := by
        intro he
        subst he
        simp [noLeadZero] at hlead
      have hpos : 1 ≤ digitVal c1 := digitVal_pos hd1 hz
      rw [digitsVal_three] at hv
      rw [digitsVal_three] at h255
      subst hv
      unfold renderNat
      rw [if_neg (by omega), if_neg (by omega)]
      have e1 : ((digitVal c1 * 10 + digitVal c2) * 10 + digitVal c3) / 100 = digitVal c1 := by
        omega
      have e2 : ((digitVal c1 * 10 + digitVal c2) * 10 + digitVal c3) / 10 % 10 = digitVal c2 := by
        omega
      have e3 : ((digitVal c1 * 10 + digitVal c2) * 10 + digitVal c3) % 10 = digitVal c3 := by
        omega
      rw [e1, e2, e3, digitChar_digitVal hd1, digitChar_digitVal hd2, digitChar_digitVal hd3]
    · simp at hlen

theorem stripPlus_of_ne {c : Char} {t : List Char} (hc : c ≠ '+') :
    stripPlus (c :: t) = c :: t := by
  unfold stripPlus
  split
  · next heq =>
    injection heq with h1 h2
    exact absurd h1 hc
  · rfl

theorem stripPlus_shape (t : List Char) : t = stripPlus t ∨ t = '+' :: stripPlus t := by
  cases t with
  | nil => left; rfl
  | cons c rest =>
    by_cases hc : c = '+'
    · subst hc
      right
      rfl
    · left
      rw [stripPlus_of_ne hc]

theorem parseU8_some_iff {t : List Char} {n : Nat} :
    parseU8 t = some n ↔
      ∃ ds, (t = ds ∨ t = '+' :: ds) ∧ ds ≠ [] ∧ ds.all isDig = true ∧
        digitsVal ds = n ∧ n ≤ 255 := by
  constructor
  · intro h
    unfold parseU8 at h
    simp only at h
    split at h
    · exact absurd h (by simp)
    · next hne =>
      split at h
      · next hall =>
        split at h
        · next hle =>
          injection h with hv
          refine ⟨stripPlus t, stripPlus_shape t, ?_, hall, hv, by omega⟩
          simpa using hne
        · exact absurd h (by simp)
      · exact absurd h (by simp)
  · rintro ⟨ds, hshape, hne, hall, hval, hle⟩
    have hstrip : stripPlus t = ds := by
      rcases hshape with h1 | h2
      · subst h1
        cases t with
        | nil => rfl
        | cons c rest =>
          have hd : isDig c = true := by
            rw [List.all_eq_true] at hall
            exact hall c (by simp)
          exact stripPlus_of_ne (isDig_ne_plus hd)
      · rw [h2]
        rfl
    unfold parseU8
    simp only [hstrip]
    rw [if_neg (by simpa using hne)]
    rw [if_pos hall, hval, if_pos hle]

theorem parseU8_renderNat {v : Nat} (h : v ≤ 255) : parseU8 (renderNat v) = some v := by
  obtain ⟨hall, hne, _, _, hval⟩ := renderNat_facts h
  exact parseU8_some_iff.mpr ⟨renderNat v, Or.inl rfl, hne, hall, hval, h⟩

/-! ## Helper lemmas: the IPv4 parse/render equivalence -/

theorem renderNat_noDot {v : Nat} (h : v ≤ 255) : ∀ c ∈ renderNat v, c ≠ '.' := by
  intro c hc
  have hall := (renderNat_facts h).1
  rw [List.all_eq_true] at hall
  exact isDig_ne_dot (hall c hc)

theorem ipv4Chars_eq (a b c d : Nat) :
    ipv4Chars a b c d =
      renderNat a ++ '.' :: (renderNat b ++ '.' :: (renderNat c ++ '.' :: renderNat d)) := by
  simp [ipv4Chars]

theorem splitOnDot_ipv4Chars {a b c d : Nat} (ha : a ≤ 255) (hb : b ≤ 255) (hc : c ≤ 255)
    (hd : d ≤ 255) :
    splitOnDot (ipv4Chars a b c d) =
      [renderNat a, renderNat b, renderNat c, renderNat d] := by
  rw [ipv4Chars_eq]
  rw [splitOnDot_append (renderNat_noDot ha), splitOnDot_append (renderNat_noDot hb),
    splitOnDot_append (renderNat_noDot hc), splitOnDot_noDot (renderNat_noDot hd)]

theorem parseIpv4_iff {cs : List Char} {a b c d : Nat} :
    parseIpv4 cs = some (a, b, c, d) ↔
      a ≤ 255 ∧ b ≤ 255 ∧ c ≤ 255 ∧ d ≤ 255 ∧ cs = ipv4Chars a b c d := by
  constructor
  · intro h
    unfold parseIpv4 at h
    split at h
    · next t1 t2 t3 t4 hsp =>
      split at h
      · next a0 b0 c0 d0 h1 h2 h3 h4 =>
        injection h with hv
        obtain ⟨e1, e2, e3, e4⟩ : a0 = a ∧ b0 = b ∧ c0 = c ∧ d0 = d := by
          simpa [Prod.ext_iff] using hv
        subst e1; subst e2; subst e3; subst e4
        have ha := parseOctet_le h1
        have hb := parseOctet_le h2
        have hcb := parseOctet_le h3
        have hdb := parseOctet_le h4
        refine ⟨ha, hb, hcb, hdb, ?_⟩
        have hjoin := joinDot_splitOnDot cs
        rw [hsp] at hjoin
        rw [ipv4Chars_eq, renderNat_parseOctet h1, renderNat_parseOctet h2,
          renderNat_parseOctet h3, renderNat_parseOctet h4, ← hjoin]
        rfl
      · next hno => exact absurd h (by simp)
    · exact absurd h (by simp)
  · rintro ⟨ha, hb, hc, hd, hcs⟩
    subst hcs
    unfold parseIpv4
    rw [splitOnDot_ipv4Chars ha hb hc hd]
    simp only [parseOctet_renderNat ha, parseOctet_renderNat hb, parseOctet_renderNat hc,
      parseOctet_renderNat hd]

/-! ## Helper lemmas: contiguous 32-bit masks -/

theorem loAux_le (k m : Nat) : loAux k m ≤ k := by
  induction k with
  | zero => simp [loAux]
  | succ k ih =>
    unfold loAux
    split
    · omega
    · omega

theorem pow_tzAux_dvd (f : Nat) : ∀ m, 2 ^ tzAux f m ∣ m := by
  induction f with
  | zero =>
    intro m
    simp [tzAux]
  | succ f ih =>
    intro m
    unfold tzAux
    split
    · simp
    · next hm =>
      obtain ⟨q, hq⟩ := ih (m / 2)
      refine ⟨q, ?_⟩
      have hm2 : m = 2 * (m / 2) := by omega
      revert hq
      generalize tzAux f (m / 2) = T
      intro hq
      rw [pow_succ, hm2, hq]
      ring

theorem loAux_lower (k m : Nat) : 2 ^ k - 2 ^ (k - loAux k m) ≤ m % 2 ^ k := by
  induction k with
  | zero => simp [loAux]
  | succ k ih =>
    unfold loAux
    split
    · next htb =>
      rw [Nat.testBit_to_div_mod, decide_eq_true_eq] at htb
      have hsplit : m % 2 ^ (k + 1) = m % 2 ^ k + 2 ^ k * (m / 2 ^ k % 2) := by
        rw [pow_succ, Nat.mod_mul]
      rw [htb] at hsplit
      have hL : loAux k m ≤ k := loAux_le k m
      have hsub : k + 1 - (loAux k m + 1) = k - loAux k m := by omega
      rw [hsub]
      have hmono : 2 ^ (k - loAux k m) ≤ 2 ^ k := Nat.pow_le_pow_right (by omega) (by omega)
      have hpow : 2 ^ (k + 1) = 2 ^ k * 2 := pow_succ 2 k
      omega
    · simp

theorem contiguous_mask_eq {m : Nat} (hlt : m < 2 ^ 32)
    (h : leadingOnes32 m + trailingZeros32 m = 32) : m = maskBits (leadingOnes32 m) := by
  have hL : leadingOnes32 m ≤ 32 := loAux_le 32 m
  have htz : trailingZeros32 m = 32 - leadingOnes32 m := by omega
  have hdvd : 2 ^ (32 - leadingOnes32 m) ∣ m := by
    rw [← htz]
    exact pow_tzAux_dvd 32 m
  have hlow : 2 ^ 32 - 2 ^ (32 - leadingOnes32 m) ≤ m := by
    have := loAux_lower 32 m
    rwa [Nat.mod_eq_of_lt hlt] at this
  have hPQ : 2 ^ (32 - leadingOnes32 m) * 2 ^ leadingOnes32 m = 2 ^ 32 := by
    rw [← pow_add]
    congr 1
    omega
  have hgoal : m = 2 ^ 32 - 2 ^ (32 - leadingOnes32 m) := by
    obtain ⟨q, hq⟩ := hdvd
    revert hlt hq hPQ hlow
    generalize 2 ^ (32 - leadingOnes32 m) = P
    generalize 2 ^ leadingOnes32 m = Q
    intro hlt hlow hPQ hq
    have hPqlt : P * q < P * Q := by
      rw [← hq, hPQ]
      exact hlt
    have hqlt : q < Q := Nat.lt_of_mul_lt_mul_left hPqlt
    have h3 : P * (q + 1) ≤ P * Q := Nat.mul_le_mul_left P hqlt
    have h1 : m + P = P * (q + 1) := by
      rw [hq]
      ring
    omega
  unfold maskBits
  split
  · next h0 =>
    rw [h0] at hgoal
    simpa using hgoal
  · next h0 =>
    have hPle : 2 ^ (32 - leadingOnes32 m) ≤ 2 ^ 32 := Nat.pow_le_pow_right (by omega) (by omega)
    have hP1 : 1 ≤ 2 ^ (32 - leadingOnes32 m) := Nat.one_le_two_pow
    omega

theorem maskBits_lt (n : Nat) : maskBits n < 2 ^ 32 := by
  unfold maskBits
  split
  · exact Nat.pos_pow_of_pos _ (by omega)
  · have : 1 ≤ 2 ^ (32 - n) := Nat.one_le_two_pow
    omega

/-! ## Helper lemmas: the operation-level pipeline -/

theorem runAddIps_ok {run : Event → Except String Unit} {adapter : String} {l : List IP}
    (h : ∀ ip ∈ l, run (Event.addIp adapter ip.address ip.subnet) = Except.ok ()) :
    runAddIps run adapter l =
      (l.map fun ip => Event.addIp adapter ip.address ip.subnet, Except.ok ()) := by
  induction l with
  | nil => rfl
  | cons ip rest ih =>
    have h1 := h ip (by simp)
    have h2 := ih (fun x hx => h x (by simp [hx]))
    simp [runAddIps, h1, h2]

theorem runAddGateways_ok {run : Event → Except String Unit} {adapter : String}
    {l : List String} (h : ∀ g k, run (Event.addGateway adapter g k) = Except.ok ()) :
    ∀ i, runAddGateways run adapter l i = (gwPlan adapter l i, Except.ok ()) := by
  induction l with
  | nil =>
    intro i
    rfl
  | cons g rest ih =>
    intro i
    simp [runAddGateways, gwPlan, h, ih]

theorem filter_gw_map_addIp (adapter : String) (l : List IP) :
    (l.map fun ip => Event.addIp adapter ip.address ip.subnet).filter Event.isGw = [] := by
  induction l with
  | nil => rfl
  | cons ip rest ih => simp [List.filter_cons, Event.isGw, ih]

theorem filter_gw_gwPlan (adapter : String) (l : List String) :
    ∀ i, (gwPlan adapter l i).filter Event.isGw = gwPlan adapter l i := by
  induction l with
  | nil =>
    intro i
    rfl
  | cons g rest ih =>
    intro i
    simp [gwPlan, List.filter_cons, Event.isGw, ih]

theorem gwPlan_drop_short {l : List String} (h : ¬ l.length > 1) (adapter : String) :
    gwPlan adapter (l.drop 1) 0 = [] := by
  rcases l with _ | ⟨g, _ | ⟨g2, rest⟩⟩
  · rfl
  · rfl
  · simp at h

theorem load_profile_ok {run : Event → Except String Unit} {profile : NetworkProfile}
    {adapter : String} (h : ∀ e, run e = Except.ok ()) :
    load_profile run profile adapter =
      (ipPlan adapter profile ++ gwPlan adapter (profile.gateways.drop 1) 0 ++
        [Event.setDns adapter profile.dns], Except.ok ()) := by
  unfold load_profile ipPlan
  have hgw : ∀ g k, run (Event.addGateway adapter g k) = Except.ok () := fun g k => h _
  rcases hips : profile.ips with _ | ⟨first, rest⟩
  · simp only []
    by_cases hlen : profile.gateways.length > 1
    · rw [if_pos hlen, runAddGateways_ok hgw 0, h (Event.setDns adapter profile.dns)]
    · rw [if_neg hlen, gwPlan_drop_short hlen, h (Event.setDns adapter profile.dns)]
  · simp only []
    rw [h (Event.setIp adapter first.address first.subnet profile.gateways.head?)]
    rw [runAddIps_ok (fun ip hip => h _)]
    by_cases hlen : profile.gateways.length > 1
    · rw [if_pos hlen, runAddGateways_ok hgw 0, h (Event.setDns adapter profile.dns)]
    · rw [if_neg hlen, gwPlan_drop_short hlen, h (Event.setDns adapter profile.dns)]

theorem load_profile_dns_error {run : Event → Except String Unit} {prof : NetworkProfile}
    {adapter : String} {err : String}
    (hok : ∀ e, e ≠ Event.setDns adapter prof.dns → run e = Except.ok ())
    (herr : run (Event.setDns adapter prof.dns) = Except.error err) :
    load_profile run prof adapter =
      (ipPlan adapter prof ++ gwPlan adapter (prof.gateways.drop 1) 0 ++
        [Event.setDns adapter prof.dns], Except.error err) := by
  unfold load_profile ipPlan
  have hgw : ∀ g k, run (Event.addGateway adapter g k) = Except.ok () :=
    fun g k => hok _ (by simp)
  rcases hips : prof.ips with _ | ⟨first, rest⟩
  · simp only []
    by_cases hlen : prof.gateways.length > 1
    · rw [if_pos hlen, runAddGateways_ok hgw 0, herr]
    · rw [if_neg hlen, gwPlan_drop_short hlen, herr]
  · simp only []
    rw [hok (Event.setIp adapter first.address first.subnet prof.gateways.head?) (by simp)]
    rw [runAddIps_ok (fun ip hip => hok _ (by simp))]
    by_cases hlen : prof.gateways.length > 1
    · rw [if_pos hlen, runAddGateways_ok hgw 0, herr]
    · rw [if_neg hlen, gwPlan_drop_short hlen, herr]

/-! ## Remaining helper lemmas -/

theorem string_mk_data (s : String) : String.mk s.data = s := by
  cases s
  rfl

theorem octetsOf_maskOf {a b c d : Nat} (ha : a ≤ 255) (hb : b ≤ 255) (hc : c ≤ 255)
    (hd : d ≤ 255) : octetsOf (maskOf (a, b, c, d)) = (a, b, c, d) := by
  unfold octetsOf maskOf
  have e24 : (2 : Nat) ^ 24 = 16777216 := by norm_num
  have e16 : (2 : Nat) ^ 16 = 65536 := by norm_num
  have e8 : (2 : Nat) ^ 8 = 256 := by norm_num
  simp only [e24, e16, e8]
  refine Prod.ext ?_ (Prod.ext ?_ (Prod.ext ?_ ?_)) <;> simp only [] <;> omega

theorem maskOf_lt {a b c d : Nat} (ha : a ≤ 255) (hb : b ≤ 255) (hc : c ≤ 255)
    (hd : d ≤ 255) : maskOf (a, b, c, d) < 2 ^ 32 := by
  unfold maskOf
  have e24 : (2 : Nat) ^ 24 = 16777216 := by norm_num
  have e16 : (2 : Nat) ^ 16 = 65536 := by norm_num
  have e8 : (2 : Nat) ^ 8 = 256 := by norm_num
  have e32 : (2 : Nat) ^ 32 = 4294967296 := by norm_num
  simp only [e24, e16, e8, e32]
  omega

theorem parseOctet_not_dig {c : Char} (t : List Char) (hc : isDig c = false) :
    parseOctet (c :: t) = none := by
  unfold parseOctet isOctetTok
  rw [if_neg]
  simp [List.all_cons, hc]

theorem parseIpv4_slash_none (rest : List Char) : parseIpv4 ('/' :: rest) = none := by
  rcases hsp : splitOnDot rest with _ | ⟨g, gs⟩
  · exact absurd hsp (splitOnDot_ne_nil rest)
  · have hsplit := splitOnDot_cons_ne (by decide : ('/' : Char) ≠ '.') hsp
    unfold parseIpv4
    rw [hsplit]
    have hoct : parseOctet ('/' :: g) = none := parseOctet_not_dig g (by decide)
    rcases gs with _ | ⟨g2, _ | ⟨g3, _ | ⟨g4, _ | ⟨g5, r⟩⟩⟩⟩ <;> simp [hoct]

theorem outcome_match_isSome (o : Outcome) (c : Cmd) :
    (match o with
     | Outcome.spawnFail e => some ([c], Except.error e)
     | Outcome.ran _ _ => some ([c], Except.ok ())).isSome = true := by
  rcases o with m | ⟨b, st⟩ <;> rfl

theorem set_dns_eq (runCmd : Cmd → Outcome) (adapter : String) (dns : DNS) :
    set_dns runCmd adapter dns =
      (match runCmd (dnsCmd adapter dns) with
       | Outcome.spawnFail e => ([dnsCmd adapter dns], Except.error e)
       | Outcome.ran _ _ => ([dnsCmd adapter dns], Except.ok ())) := by
  cases dns <;> rfl

/-! ## Claim theorems -/

/-- C1: for a profile whose ips list is `[A, B, C]`, if the primary-address
operation for `A` succeeds and the additive address operation for `B`
fails, `load_profile` issues exactly the primary operation for `A`
followed by the attempted additive operation for `B` — the additive
operation for `C`, every gateway operation and the DNS operation are never
issued — and returns the error captured from `B`'s failure. -/
theorem c1_fail_fast_on_additive_ip
    (run : Event → Except String Unit) (prof : NetworkProfile) (adapter : String)
    (A B C : IP) (errB : String) (hips : prof.ips = [A, B, C])
    (hA : run (Event.setIp adapter A.address A.subnet prof.gateways.head?) = Except.ok ())
    (hB : run (Event.addIp adapter B.address B.subnet) = Except.error errB) :
    load_profile run prof adapter =
      ([Event.setIp adapter A.address A.subnet prof.gateways.head?,
        Event.addIp adapter B.address B.subnet], Except.error errB) := by
  unfold load_profile
  rw [hips]
  simp only [hA, runAddIps, hB]

/-- C1 witness: a concrete profile with three addresses on which the
second, additive operation fails. -/
theorem c1_fail_fast_on_additive_ip_witness :
    load_profile failOnSecondIp profThreeIps "eth0" =
      ([Event.setIp "eth0" "10.0.0.1" "/24" (some "10.0.0.254"),
        Event.addIp "eth0" "10.0.0.2" "/24"], Except.error "add failed") := by
  have h := c1_fail_fast_on_additive_ip failOnSecondIp profThreeIps "eth0"
    ⟨"10.0.0.1", "/24"⟩ ⟨"10.0.0.2", "/24"⟩ ⟨"10.0.0.3", "/24"⟩ "add failed" rfl rfl rfl
  exact h

/-- C4: with every operation succeeding and a non-empty ips list, the
primary-address operation receives the head of the gateway list (`g1` for
`[g1, g2, g3]`), and the add_gateway operations issued are exactly one per
gateway at index `i ≥ 1`, in order, with metric `i` (which `gwPlan`
renders as metrics `1` and `2` for `[g1, g2, g3]`). -/
theorem c4_gateway_metrics
    (run : Event → Except String Unit) (prof : NetworkProfile) (adapter : String)
    (first : IP) (rest : List IP) (h : ∀ e, run e = Except.ok ())
    (hips : prof.ips = first :: rest) :
    (load_profile run prof adapter).1.head? =
      some (Event.setIp adapter first.address first.subnet prof.gateways.head?) ∧
    (load_profile run prof adapter).1.filter Event.isGw =
      gwPlan adapter (prof.gateways.drop 1) 0 ∧
    (∀ g1 g2 g3, prof.gateways = [g1, g2, g3] →
      (load_profile run prof adapter).1.filter Event.isGw =
        [Event.addGateway adapter g2 1, Event.addGateway adapter g3 2]) := by
  rw [load_profile_ok h]
  have hfilter :
      (ipPlan adapter prof ++ gwPlan adapter (prof.gateways.drop 1) 0 ++
        [Event.setDns adapter prof.dns]).filter Event.isGw =
      gwPlan adapter (prof.gateways.drop 1) 0 := by
    rw [List.filter_append, List.filter_append]
    rw [filter_gw_gwPlan]
    have h1 : (ipPlan adapter prof).filter Event.isGw = [] := by
      unfold ipPlan
      rw [hips]
      simp only [List.filter_cons]
      rw [filter_gw_map_addIp]
      rfl
    rw [h1]
    simp [Event.isGw]
  refine ⟨?_, hfilter, ?_⟩
  · simp [ipPlan, hips]
  · intro g1 g2 g3 hgw
    rw [hfilter, hgw]
    rfl

/-- C4 witness: a concrete profile with gateways `[g1, g2, g3]`. -/
theorem c4_gateway_metrics_witness :
    (load_profile allOk profThreeGws "eth0").1.head? =
      some (Event.setIp "eth0" "10.0.0.1" "/24" (some "g1")) ∧
    (load_profile allOk profThreeGws "eth0").1.filter Event.isGw =
      [Event.addGateway "eth0" "g2" 1, Event.addGateway "eth0" "g3" 2] := by
  have h := c4_gateway_metrics allOk profThreeGws "eth0" ⟨"10.0.0.1", "/24"⟩ []
    (fun e => rfl) rfl
  exact ⟨h.1, h.2.2 "g1" "g2" "g3" rfl⟩

/-- C9: on the Linux branch, once the flush has spawned and the add
invocation has succeeded, a default-route invocation that runs and exits
with failure or fails to spawn does not change the result: `set_ip_addr`
returns success with all three commands attempted (the gateway failure is
only logged), and `load_profile` with an all-successful operation oracle
reports overall success. -/
theorem c9_route_failure_ignored
    (runCmd : Cmd → Outcome) (adapter ip subnet ns gw : String) (bf : Bool)
    (sf sa sg : String)
    (hn : normalize_subnet_for_os subnet = Except.ok ns)
    (hflush : runCmd (flushCmd adapter) = Outcome.ran bf sf)
    (hadd : runCmd (addAddrCmd adapter ip ns) = Outcome.ran true sa)
    (hgw : runCmd (routeCmd adapter gw) = Outcome.ran false sg ∨
      runCmd (routeCmd adapter gw) = Outcome.spawnFail sg) :
    set_ip_addr runCmd adapter ip subnet (some gw) =
      ([flushCmd adapter, addAddrCmd adapter ip ns, routeCmd adapter gw], Except.ok ()) ∧
    (∀ run prof adapter2, (∀ e, run e = Except.ok ()) →
      (load_profile run prof adapter2).2 = Except.ok ()) := by
  constructor
  · unfold set_ip_addr
    simp only [hn, hflush, hadd]
    rcases hgw with h1 | h1 <;> simp only [h1]
  · intro run prof adapter2 hok
    rw [load_profile_ok hok]

/-- C9 witness: a concrete run where the route command exits with failure
yet the call succeeds. -/
theorem c9_route_failure_ignored_witness :
    set_ip_addr runRouteRanFail "eth0" "10.0.0.5" "/24" (some "10.0.0.254") =
      ([flushCmd "eth0", addAddrCmd "eth0" "10.0.0.5" "/24", routeCmd "eth0" "10.0.0.254"],
        Except.ok ()) := by
  exact (c9_route_failure_ignored runRouteRanFail "eth0" "10.0.0.5" "/24" "/24" "10.0.0.254"
    true "" "" "route exited 2" rfl rfl rfl (Or.inl rfl)).1

/-- C10: every DNS selection other than the `None` variant has `some`
primary and secondary projections, so the `unwrap` calls in the Windows
branch of `set_dns` never panic: the panic-aware model
`set_dns_windows` always returns `some` result. -/
theorem c10_dns_projections_total :
    (∀ dns : DNS, dns ≠ DNS.None →
      (DNS.primary dns).isSome = true ∧ (DNS.secondary dns).isSome = true) ∧
    (∀ (runCmd : Cmd → Outcome) (adapter : String) (dns : DNS),
      (set_dns_windows runCmd adapter dns).isSome = true) := by
  constructor
  · intro dns h
    cases dns with
    | None => exact absurd rfl h
    | Quad9 => exact ⟨rfl, rfl⟩
    | Google => exact ⟨rfl, rfl⟩
    | Cloudflare => exact ⟨rfl, rfl⟩
    | OpenDNS => exact ⟨rfl, rfl⟩
    | Custom p t => exact ⟨rfl, rfl⟩
  · intro runCmd adapter dns
    cases dns <;> exact outcome_match_isSome _ _

/-- C10 witness: the projections at the `Quad9` selection. -/
theorem c10_dns_projections_total_witness :
    (DNS.primary DNS.Quad9).isSome = true ∧ (DNS.secondary DNS.Quad9).isSome = true := by
  exact c10_dns_projections_total.1 DNS.Quad9 (by decide)

/-- C2 counterexample: with an oracle on which the `nmcli` process runs
but exits with failure, `set_dns` still returns success — refuting the
claim that a run-and-exit-with-failure outcome makes `set_dns` return an
error. -/
theorem c2_counterexample :
    runAllRanFail (dnsAutoCmd "eth0") = Outcome.ran false "exited 1" ∧
    set_dns runAllRanFail "eth0" DNS.None = ([dnsAutoCmd "eth0"], Except.ok ()) := by
  exact ⟨rfl, rfl⟩

/-- C2 amended: `set_dns` issues exactly one command and inspects only
whether it spawned: it returns success whenever the process ran,
regardless of exit status, and returns an error (carrying the diagnostic)
exactly when the process failed to spawn; `load_profile` propagates a
`set_dns` error. -/
theorem c2_set_dns_spawn_failure_only
    (runCmd : Cmd → Outcome) (adapter : String) (dns : DNS) :
    (set_dns runCmd adapter dns).1 = [dnsCmd adapter dns] ∧
    (∀ b st, runCmd (dnsCmd adapter dns) = Outcome.ran b st →
      (set_dns runCmd adapter dns).2 = Except.ok ()) ∧
    (∀ m, runCmd (dnsCmd adapter dns) = Outcome.spawnFail m →
      (set_dns runCmd adapter dns).2 = Except.error m) ∧
    (∀ (run : Event → Except String Unit) (prof : NetworkProfile) (adapter2 err : String),
      (∀ e, e ≠ Event.setDns adapter2 prof.dns → run e = Except.ok ()) →
      run (Event.setDns adapter2 prof.dns) = Except.error err →
      (load_profile run prof adapter2).2 = Except.error err) := by
  refine ⟨?_, ?_, ?_, ?_⟩
  · rcases h : runCmd (dnsCmd adapter dns) with m | ⟨b, st⟩ <;> rw [set_dns_eq, h]
  · intro b st h
    rw [set_dns_eq, h]
  · intro m h
    rw [set_dns_eq, h]
  · intro run prof adapter2 err hok herr
    rw [load_profile_dns_error hok herr]

/-- C2 witness: a spawn failure is returned as the error, and a failing
DNS operation is the error `load_profile` returns. -/
theorem c2_set_dns_spawn_failure_only_witness :
    (set_dns runSpawnFailAll "eth0" DNS.Quad9).2 = Except.error "nmcli not found" ∧
    (load_profile failOnDnsExact profThreeIps "eth0").2 = Except.error "dns failed" := by
  constructor
  · exact (c2_set_dns_spawn_failure_only runSpawnFailAll "eth0" DNS.Quad9).2.2.1
      "nmcli not found" rfl
  · exact (c2_set_dns_spawn_failure_only runSpawnFailAll "eth0" DNS.Quad9).2.2.2
      failOnDnsExact profThreeIps "eth0" "dns failed"
      (fun e he => by
        have he2 : e ≠ Event.setDns "eth0" DNS.None := he
        simp [failOnDnsExact, he2]) rfl

/-- C3 counterexample: with a flush that runs but exits with failure, the
Linux `set_ip_addr` does not abort: the add command is still attempted and
the call succeeds — refuting the claim that a flush that runs and exits
with failure aborts `set_ip_addr` before the add invocation. -/
theorem c3_counterexample :
    runFlushRanFail (flushCmd "eth0") = Outcome.ran false "flush exited 1" ∧
    set_ip_addr runFlushRanFail "eth0" "10.0.0.5" "/24" Option.none =
      ([flushCmd "eth0", addAddrCmd "eth0" "10.0.0.5" "/24"], Except.ok ()) := by
  exact ⟨rfl, rfl⟩

/-- C3 amended: on the Linux branch `set_ip_addr` runs flush then add;
it aborts before attempting the add only when the flush fails to spawn
(the flush's exit status is not inspected); once the flush has spawned
the add is attempted, and the add invocation's spawn failure or failure
exit aborts `set_ip_addr` with that error; with no gateway requested, a
spawned flush plus a successful add yield success. -/
theorem c3_flush_spawn_failure_only
    (runCmd : Cmd → Outcome) (adapter ip subnet ns : String) (gw : Option String)
    (hn : normalize_subnet_for_os subnet = Except.ok ns) :
    (∀ m, runCmd (flushCmd adapter) = Outcome.spawnFail m →
      set_ip_addr runCmd adapter ip subnet gw = ([flushCmd adapter], Except.error m)) ∧
    (∀ b st, runCmd (flushCmd adapter) = Outcome.ran b st →
      (set_ip_addr runCmd adapter ip subnet gw).1.take 2 =
        [flushCmd adapter, addAddrCmd adapter ip ns]) ∧
    (∀ b st m, runCmd (flushCmd adapter) = Outcome.ran b st →
      runCmd (addAddrCmd adapter ip ns) = Outcome.spawnFail m →
      set_ip_addr runCmd adapter ip subnet gw =
        ([flushCmd adapter, addAddrCmd adapter ip ns], Except.error m)) ∧
    (∀ b st st2, runCmd (flushCmd adapter) = Outcome.ran b st →
      runCmd (addAddrCmd adapter ip ns) = Outcome.ran false st2 →
      set_ip_addr runCmd adapter ip subnet gw =
        ([flushCmd adapter, addAddrCmd adapter ip ns], Except.error st2)) ∧
    (∀ b st st2, gw = Option.none → runCmd (flushCmd adapter) = Outcome.ran b st →
      runCmd (addAddrCmd adapter ip ns) = Outcome.ran true st2 →
      set_ip_addr runCmd adapter ip subnet gw =
        ([flushCmd adapter, addAddrCmd adapter ip ns], Except.ok ())) := by
  refine ⟨?_, ?_, ?_, ?_, ?_⟩
  · intro m h
    unfold set_ip_addr
    simp only [hn, h]
  · intro b st h
    unfold set_ip_addr
    simp only [hn, h]
    rcases h2 : runCmd (addAddrCmd adapter ip ns) with m | ⟨b2, st2⟩
    · rfl
    · rcases b2
      · rfl
      · rcases gw with _ | gwv
        · rfl
        · rcases h3 : runCmd (routeCmd adapter gwv) with m3 | ⟨b3, st3⟩
          · simp [h3]
          · rcases b3 <;> simp [h3]
  · intro b st m h h2
    unfold set_ip_addr
    simp only [hn, h, h2]
  · intro b st st2 h h2
    unfold set_ip_addr
    simp only [hn, h, h2]
  · intro b st st2 hgw h h2
    subst hgw
    unfold set_ip_addr
    simp only [hn, h, h2]

/-- C3 witness: a concrete run where the flush fails to spawn and the
call aborts with that diagnostic. -/
theorem c3_flush_spawn_failure_only_witness :
    set_ip_addr runFlushSpawnFail "eth0" "10.0.0.5" "/24" Option.none =
      ([flushCmd "eth0"], Except.error "ip not found") := by
  exact (c3_flush_spawn_failure_only runFlushSpawnFail "eth0" "10.0.0.5" "/24" "/24"
    Option.none rfl).1 "ip not found" rfl

/-- C7 counterexample: `"192.168.1.01"` consists of four dot-separated
decimal numbers each in [0,255] with no extra characters (the spec's
wording), yet the validator rejects it, because the underlying `Ipv4Addr`
parser refuses octets written with leading zeros. -/
theorem c7_counterexample :
    spec_ipv4_literal "192.168.1.01" = true ∧
    check_valid_ipv4 "192.168.1.01" = false := by
  exact ⟨rfl, rfl⟩

/-- C7 amended: the validator accepts exactly the canonical dotted-decimal
strings — four dot-separated octets, each in [0,255] and written without
leading zeros (hence at most three digits), no extra characters; that is,
the strings of the form `ipv4Chars a b c d` with all octets at most 255. -/
theorem c7_ipv4_validator_amended (s : String) :
    check_valid_ipv4 s = true ↔
      ∃ a b c d, a ≤ 255 ∧ b ≤ 255 ∧ c ≤ 255 ∧ d ≤ 255 ∧ s.data = ipv4Chars a b c d := by
  unfold check_valid_ipv4
  constructor
  · intro h
    rw [Option.isSome_iff_exists] at h
    obtain ⟨⟨a, b, c, d⟩, hp⟩ := h
    obtain ⟨ha, hb, hc, hd, hs⟩ := parseIpv4_iff.mp hp
    exact ⟨a, b, c, d, ha, hb, hc, hd, hs⟩
  · rintro ⟨a, b, c, d, ha, hb, hc, hd, hs⟩
    rw [parseIpv4_iff.mpr ⟨ha, hb, hc, hd, hs⟩]
    rfl

/-- C7 witness: the validator's verdicts on the spec's three examples,
through the amended characterization. -/
theorem c7_ipv4_validator_amended_witness :
    check_valid_ipv4 "192.168.1.1" = true ∧
    check_valid_ipv4 "192.168.1.256" = false ∧
    check_valid_ipv4 "not.an.ip" = false := by
  refine ⟨?_, rfl, rfl⟩
  exact (c7_ipv4_validator_amended "192.168.1.1").mpr
    ⟨192, 168, 1, 1, by decide, by decide, by decide, by decide, by decide⟩

/-- C8 counterexample: `"/+5"` is not of the form `/N` (it carries a sign),
yet the conversion succeeds, because Rust's `u8` parsing accepts an
optional leading `'+'` — refuting the claim that any input not of the
form `/N` with `N ≤ 32` yields an error. -/
theorem c8_counterexample :
    spec_cidr_literal "/+5" = false ∧
    cidr_to_dotted_decimal "/+5" = Except.ok "248.0.0.0" := by
  exact ⟨rfl, rfl⟩

/-- C8 amended: for every prefix length `n ≤ 32` written after a slash,
the conversion returns the dotted rendering of the mask
`if n = 0 then 0 else !((1 <<< (32 - n)) - 1)`; and it succeeds only on
inputs `'/' ++ t` where `t` parses as an 8-bit unsigned decimal integer
(optional leading `'+'` and leading zeros accepted) of value at most 32,
every other input yielding an error. -/
theorem c8_cidr_conversion_amended :
    (∀ (s : String) (n : Nat), s.data = '/' :: renderNat n → n ≤ 32 →
      cidr_to_dotted_decimal s = Except.ok (renderIpv4 (octetsOf (maskBits n)))) ∧
    (∀ s r, cidr_to_dotted_decimal s = Except.ok r →
      ∃ t n, s.data = '/' :: t ∧ parseU8 t = some n ∧ n ≤ 32 ∧
        r = renderIpv4 (octetsOf (maskBits n))) := by
  constructor
  · intro s n hs hn
    unfold cidr_to_dotted_decimal
    split
    · next rest hrest =>
      rw [hs] at hrest
      injection hrest with h1 h2
      subst h2
      rw [parseU8_renderNat (by omega)]
      simp only [if_pos hn]
    · next hno =>
      exact (hno (renderNat n) hs).elim
  · intro s r h
    unfold cidr_to_dotted_decimal at h
    split at h
    · next rest hrest =>
      split at h
      · next n hu =>
        split at h
        · next hle =>
          injection h with hr
          exact ⟨rest, n, hrest, hu, hle, hr.symm⟩
        · exact absurd h (by simp)
      · exact absurd h (by simp)
    · exact absurd h (by simp)

/-- C8 witness: the three examples of the spec, and the success
characterization at `"/24"`. -/
theorem c8_cidr_conversion_amended_witness :
    cidr_to_dotted_decimal "/24" = Except.ok "255.255.255.0" ∧
    cidr_to_dotted_decimal "/0" = Except.ok "0.0.0.0" ∧
    cidr_to_dotted_decimal "/32" = Except.ok "255.255.255.255" ∧
    ∃ t n, ("/24" : String).data = '/' :: t ∧ parseU8 t = some n ∧ n ≤ 32 ∧
      ("255.255.255.0" : String) = renderIpv4 (octetsOf (maskBits n)) := by
  refine ⟨?_, ?_, ?_, ?_⟩
  · exact c8_cidr_conversion_amended.1 "/24" 24 rfl (by decide)
  · exact c8_cidr_conversion_amended.1 "/0" 0 rfl (by decide)
  · exact c8_cidr_conversion_amended.1 "/32" 32 rfl (by decide)
  · exact c8_cidr_conversion_amended.2 "/24" "255.255.255.0" rfl

/-- C6 counterexample: `"/+24"` is not of the form `/N` (the spec's
wording for the CIDR alternative), yet the validator accepts it, because
Rust's `u8` parsing accepts an optional leading `'+'`. -/
theorem c6_counterexample :
    check_valid_subnet "/+24" = true ∧ spec_subnet_literal "/+24" = false := by
  exact ⟨rfl, rfl⟩

/-- C6 amended: the validator returns true iff either the string parses as
an IPv4 address whose 32-bit big-endian value has `leading_ones +
trailing_zeros = 32`, or the string is `'/'` followed by an optionally
`'+'`-signed nonempty digit string (leading zeros permitted) whose value
is at most 32. -/
theorem c6_subnet_validator_amended (s : String) :
    check_valid_subnet s = true ↔
      ((∃ o, parseIpv4 s.data = some o ∧
          leadingOnes32 (maskOf o) + trailingZeros32 (maskOf o) = 32) ∨
        (∃ ds n, (s.data = '/' :: ds ∨ s.data = '/' :: '+' :: ds) ∧ ds ≠ [] ∧
          ds.all isDig = true ∧ digitsVal ds = n ∧ n ≤ 32)) := by
  constructor
  · intro h
    unfold check_valid_subnet at h
    split at h
    · next o hp =>
      left
      exact ⟨o, hp, of_decide_eq_true h⟩
    · next hp =>
      split at h
      · next rest hrest =>
        split at h
        · exact absurd h (by simp)
        · next hne =>
          split at h
          · next n hu =>
            obtain ⟨ds, hshape, hdne, hall, hval, _⟩ := parseU8_some_iff.mp hu
            right
            refine ⟨ds, n, ?_, hdne, hall, hval, of_decide_eq_true h⟩
            rcases hshape with h1 | h1
            · left
              rw [hrest, h1]
            · right
              rw [hrest, h1]
          · exact absurd h (by simp)
      · exact absurd h (by simp)
  · intro hcase
    rcases hcase with ⟨o, ho, hc⟩ | ⟨ds, n, hshape, hdne, hall, hval, hle⟩
    · unfold check_valid_subnet
      simp only [ho]
      exact decide_eq_true hc
    · have hrest : ∃ rest, s.data = '/' :: rest ∧ parseU8 rest = some n ∧ rest ≠ [] := by
        rcases hshape with h1 | h1
        · exact ⟨ds, h1,
            parseU8_some_iff.mpr ⟨ds, Or.inl rfl, hdne, hall, hval, by omega⟩, hdne⟩
        · exact ⟨'+' :: ds, h1,
            parseU8_some_iff.mpr ⟨ds, Or.inr rfl, hdne, hall, hval, by omega⟩, by simp⟩
      obtain ⟨rest, hs, hu, hrne⟩ := hrest
      have hempty : rest.isEmpty = false := by
        cases rest
        · exact absurd rfl hrne
        · rfl
      unfold check_valid_subnet
      rw [hs, parseIpv4_slash_none]
      simp only [hempty, hu, Bool.false_eq_true, if_false]
      exact decide_eq_true hle

/-- C6 witness: the spec's four examples, settled through the amended
characterization where it applies. -/
theorem c6_subnet_validator_amended_witness :
    check_valid_subnet "255.255.255.0" = true ∧
    check_valid_subnet "255.255.0.255" = false ∧
    check_valid_subnet "/24" = true ∧
    check_valid_subnet "/33" = false := by
  refine ⟨?_, rfl, ?_, rfl⟩
  · exact (c6_subnet_validator_amended "255.255.255.0").mpr
      (Or.inl ⟨(255, 255, 255, 0), by decide, by decide⟩)
  · exact (c6_subnet_validator_amended "/24").mpr
      (Or.inr ⟨['2', '4'], 24, Or.inl rfl, by decide, by decide, by decide, by decide⟩)

/-- C5 counterexample: at the valid contiguous mask `"255.255.255.0"` the
spec's composition `dotted_to_cidr(cidr_to_dotted(m))` applies the
CIDR-to-dotted conversion first, which rejects every dotted input (it
requires a leading `'/'`), so the composition returns an error rather
than succeeding with `m`. -/
theorem c5_counterexample :
    check_valid_subnet "255.255.255.0" = true ∧
    (cidr_to_dotted_decimal "255.255.255.0").bind dotted_decimal_to_cidr =
      Except.error "Invalid CIDR notation: 255.255.255.0" := by
  exact ⟨rfl, rfl⟩

/-- C5 amended: the round trip holds with the two conversions composed in
the applicable order: whenever `dotted_decimal_to_cidr` accepts `m`
(exactly the valid contiguous dotted masks), converting its result back
with `cidr_to_dotted_decimal` returns `m` itself. -/
theorem c5_mask_roundtrip_amended (m c : String)
    (h : dotted_decimal_to_cidr m = Except.ok c) :
    cidr_to_dotted_decimal c = Except.ok m := by
  unfold dotted_decimal_to_cidr at h
  split at h
  · next o hp =>
    split at h
    · next hcontig =>
      injection h with hc
      obtain ⟨a, b, c2, d⟩ := o
      obtain ⟨ha, hb, hcb, hd, hm⟩ := parseIpv4_iff.mp hp
      have hlt : maskOf (a, b, c2, d) < 2 ^ 32 := maskOf_lt ha hb hcb hd
      have hL : leadingOnes32 (maskOf (a, b, c2, d)) ≤ 32 := loAux_le 32 _
      have hmask := contiguous_mask_eq hlt hcontig
      subst hc
      unfold cidr_to_dotted_decimal
      split
      · next rest hrest =>
        have hr2 : renderNat (leadingOnes32 (maskOf (a, b, c2, d))) = rest := by
          have h3 : ('/' :: renderNat (leadingOnes32 (maskOf (a, b, c2, d))) : List Char) =
              '/' :: rest := hrest
          injection h3 with h4 h5
        rw [← hr2]
        simp only [parseU8_renderNat (show leadingOnes32 (maskOf (a, b, c2, d)) ≤ 255 by omega)]
        rw [if_pos hL]
        rw [← hmask, octetsOf_maskOf ha hb hcb hd]
        unfold renderIpv4
        simp only []
        rw [← hm, string_mk_data]
      · next hno =>
        exact (hno (renderNat (leadingOnes32 (maskOf (a, b, c2, d)))) rfl).elim
    · exact absurd h (by simp)
  · exact absurd h (by simp)

/-- C5 witness: the round trip at the mask `"255.255.0.0"`. -/
theorem c5_mask_roundtrip_amended_witness :
    dotted_decimal_to_cidr "255.255.0.0" = Except.ok "/16" ∧
    cidr_to_dotted_decimal "/16" = Except.ok "255.255.0.0" := by
  have h1 : dotted_decimal_to_cidr "255.255.0.0" = Except.ok "/16" := by rfl
  exact ⟨h1, c5_mask_roundtrip_amended "255.255.0.0" "/16" h1⟩
